import Mathlib

/-!
Verification of the resilient-execution-core design of the
`robinhood-decompiled` trading-bot plans against the TypeScript reference
implementation sketched in the repository documents.

The embedding below translates, component by component, the TypeScript
classes that the design talks about:

* `CacheManager` / `CacheInvalidationManager` (two-tier cache,
  `src/cache/cache-manager.ts`, `src/cache/cache-invalidation.ts`);
* `TokenBucket` and the two `RateLimiter` variants
  (`src/rate-limit/token-bucket.ts`, `src/rate-limit/rate-limiter.ts`,
  `src/client/rate-limiter.ts`);
* `CircuitBreaker` (`src/rate-limit/circuit-breaker.ts`);
* `ApiClient.handleError` and the cached/rate-limited/breaker-guarded
  `ApiClient.get` path (`src/client/api-client.ts` and the updated client
  in the caching document);
* `TradingService.placeOrder` / `validateOrder`
  (`src/services/trading.service.ts`) together with the `RiskManager`,
  which the repository only declares.

Time is modelled in milliseconds as `Nat` (JavaScript `Date.now()`);
JavaScript `number` arithmetic on token counts and prices is modelled
with `ℚ` (all computations involved are exact, no rounding occurs in the
source paths that matter, except `Math.floor` which is modelled
explicitly).  Asynchronous sleeping is modelled by passing the time at
which the sleep ends as an explicit argument.
-/

/-! ## Association lists

The TypeScript `Map<string, V>` objects are modelled as association
lists with last-write-wins insertion. -/

/-- `Map.set`: insert or overwrite a key. -/
def alistSet {A : Type} (m : List (String × A)) (k : String) (v : A) :
    List (String × A) :=
  (k, v) :: m.filter (fun p => p.1 != k)

/-- `Map.get`: look a key up. -/
def alistGet {A : Type} (m : List (String × A)) (k : String) : Option A :=
  (m.find? (fun p => p.1 == k)).map Prod.snd

/-- `Map.delete`: remove a key. -/
def alistErase {A : Type} (m : List (String × A)) (k : String) :
    List (String × A) :=
  m.filter (fun p => p.1 != k)

/-! ## String helpers

`String.includes` / substring containment, written out over character
lists so that everything evaluates by `decide`. -/

/-- Does the character list start with the given pattern list? -/
def charsStartWith : List Char → List Char → Bool
  | _, [] => true
  | [], _ :: _ => false
  | a :: as, b :: bs => a == b && charsStartWith as bs

/-- Does the character list contain the pattern list as a contiguous
sublist?  (JavaScript `String.prototype.includes`, and the behaviour of
an unanchored regular-expression test for a literal pattern.) -/
def charsContain : List Char → List Char → Bool
  | [], pat => pat.isEmpty
  | a :: as, pat => charsStartWith (a :: as) pat || charsContain as pat

/-- JavaScript `endpoint.includes(pattern)`. -/
def strIncludes (s pat : String) : Bool :=
  charsContain s.toList pat.toList

/-! ## CacheManager (`src/cache/cache-manager.ts`)

The L1 tier is the in-memory `Map`; the L2 tier models Redis: an entry
written by `SETEX key ttl value` is readable while `now < expiresAt`
where `expiresAt = writeTime + ttl * 1000` (Redis TTLs are in seconds,
`Date.now()` is in milliseconds).  Values are opaque payloads, modelled
as `Nat`. -/

structure CacheConfig where
  defaultTTL : Nat
  enableL1 : Bool
  enableL2 : Bool
deriving DecidableEq

structure CachedValue where
  data : Nat
  expiresAt : Nat
deriving DecidableEq

structure CacheState where
  l1Cache : List (String × CachedValue)
  l2Redis : List (String × CachedValue)
deriving DecidableEq

/-- The empty cache. -/
def CacheState.empty : CacheState := ⟨[], []⟩

/-- `CacheManager.get`.  Tries L1 first (`l1Value.expiresAt > Date.now()`),
then L2; an L2 hit repopulates L1 with a fixed 60000 ms expiry
(`// 1 min in L1`).  Returns the value (or `none` for a miss) and the
possibly updated state. -/
def CacheManager.get (cfg : CacheConfig) (s : CacheState) (key : String)
    (now : Nat) : Option Nat × CacheState :=
  let l1Hit : Option Nat :=
    if cfg.enableL1 then
      match alistGet s.l1Cache key with
      | some cv => if now < cv.expiresAt then some cv.data else none
      | none => none
    else none
  match l1Hit with
  | some v => (some v, s)
  | none =>
    if cfg.enableL2 then
      match alistGet s.l2Redis key with
      | some cv =>
        if now < cv.expiresAt then
          let s2 :=
            if cfg.enableL1 then
              { s with l1Cache := alistSet s.l1Cache key ⟨cv.data, now + 60000⟩ }
            else s
          (some cv.data, s2)
        else (none, s)
      | none => (none, s)
    else (none, s)

/-- `CacheManager.set`.  `actualTTL = ttl || this.config.defaultTTL`
(so a `0` ttl argument falls back to the default, as `0` is falsy);
the L1 entry gets `expiresAt = Date.now() + Math.min(actualTTL, 60000)`
— exactly as written in the source, the ttl value is added to the
millisecond clock without a unit conversion — while the L2 entry is
written with `SETEX key actualTTL`, i.e. `actualTTL` seconds. -/
def CacheManager.set (cfg : CacheConfig) (s : CacheState) (key : String)
    (value : Nat) (ttl : Option Nat) (now : Nat) : CacheState :=
  let actualTTL : Nat :=
    match ttl with
    | some t => if t = 0 then cfg.defaultTTL else t
    | none => cfg.defaultTTL
  let s1 :=
    if cfg.enableL1 then
      { s with l1Cache := alistSet s.l1Cache key ⟨value, now + min actualTTL 60000⟩ }
    else s
  if cfg.enableL2 then
    { s1 with l2Redis := alistSet s1.l2Redis key ⟨value, now + actualTTL * 1000⟩ }
  else s1

/-- `CacheManager.delete`: removes the literal key from L1
unconditionally and from L2 when the L2 tier is enabled. -/
def CacheManager.delete (cfg : CacheConfig) (s : CacheState) (key : String) :
    CacheState :=
  { l1Cache := alistErase s.l1Cache key
    l2Redis := if cfg.enableL2 then alistErase s.l2Redis key else s.l2Redis }

/-- `CacheManager.matchesPattern`: builds
`new RegExp(pattern.replace('*', '.*'))` and runs an unanchored `test`.
For the glob patterns the repository uses (a literal prefix followed by
a single trailing `*`), that regular expression matches a key exactly
when the key *contains* the literal prefix anywhere; for a pattern
without `*` it matches when the key contains the whole pattern. -/
def CacheManager.matchesPattern (key pattern : String) : Bool :=
  let pl := pattern.toList
  if pl.getLast? == some '*' then charsContain key.toList pl.dropLast
  else charsContain key.toList pl

/-- Redis `KEYS pattern` glob matching, for the same pattern shapes:
anchored — `pre*` matches keys that *start with* `pre`, a starless
pattern matches only the identical key. -/
def redisGlobMatch (key pattern : String) : Bool :=
  let pl := pattern.toList
  if pl.getLast? == some '*' then charsStartWith key.toList pl.dropLast
  else key == pattern

/-- `CacheManager.clear(pattern)`: with a pattern, deletes the Redis
keys returned by `KEYS pattern` (glob, anchored) and the L1 keys
accepted by `matchesPattern` (unanchored regex); without a pattern,
clears L1 and, when enabled, flushes Redis. -/
def CacheManager.clear (cfg : CacheConfig) (s : CacheState)
    (pattern : Option String) : CacheState :=
  match pattern with
  | some p =>
    let s1 :=
      if cfg.enableL2 then
        { s with l2Redis := s.l2Redis.filter (fun kv => !(redisGlobMatch kv.1 p)) }
      else s
    { s1 with l1Cache := s1.l1Cache.filter (fun kv => !(CacheManager.matchesPattern kv.1 p)) }
  | none =>
    { l1Cache := []
      l2Redis := if cfg.enableL2 then [] else s.l2Redis }

/-! ## CacheInvalidationManager (`src/cache/cache-invalidation.ts`) -/

/-- `CacheInvalidationManager.invalidateAfterOrder`: issues
`cache.delete` on the four literal strings `positions:*`, `portfolio:*`,
`orders:*`, `balance:*` (the `symbol` argument is unused in the
source). -/
def invalidateAfterOrder (cfg : CacheConfig) (s : CacheState) : CacheState :=
  CacheManager.delete cfg
    (CacheManager.delete cfg
      (CacheManager.delete cfg
        (CacheManager.delete cfg s "positions:*")
        "portfolio:*")
      "orders:*")
    "balance:*"

/-- The shipped cache configuration
(`config/cache-rate-limit.config.ts`): L1 always on, L2 only when
`NODE_ENV === 'production'`; this is the non-production instance. -/
def devCacheConfig : CacheConfig := ⟨60, true, false⟩

/-- The production instance of the shipped cache configuration: both
tiers enabled. -/
def prodCacheConfig : CacheConfig := ⟨60, true, true⟩

/-! ## TokenBucket (`src/rate-limit/token-bucket.ts`)

Token counts are JavaScript `number`s, modelled as `ℚ`.  `consume`
sleeps at most once: if after refilling fewer than `n` tokens are
available it computes `waitTime = ((n - tokens) / refillRate) * 1000`,
sleeps, refills again at the wake-up time (`sleepEnd`) and then deducts
`n` tokens unconditionally.  With `refillRate = 0` the JavaScript
division yields `Infinity`; `WaitMs.infinite` marks that case. -/

structure TokenBucket where
  tokens : ℚ
  lastRefill : Nat
  capacity : ℚ
  refillRate : ℚ
deriving DecidableEq

/-- The constructor: the bucket starts full. -/
def TokenBucket.create (capacity refillRate : ℚ) (now : Nat) : TokenBucket :=
  ⟨capacity, now, capacity, refillRate⟩

/-- `TokenBucket.refill`:
`tokens = Math.min(capacity, tokens + elapsedSeconds * refillRate)`. -/
def TokenBucket.refill (b : TokenBucket) (now : Nat) : TokenBucket :=
  let timePassed : ℚ := ((now : ℚ) - (b.lastRefill : ℚ)) / 1000
  { b with
    tokens := min b.capacity (b.tokens + timePassed * b.refillRate)
    lastRefill := now }

/-- The duration of the single sleep `consume` may perform. -/
inductive WaitMs where
  | finite (ms : ℚ)
  | infinite
deriving DecidableEq

/-- `TokenBucket.consume(n)` (default `n = 1`): refill; if short, compute
the wait time, sleep once (waking at `sleepEnd`), refill again; then
deduct `n` tokens.  The returned `Option WaitMs` is the sleep performed,
if any.  There is no configuration check and no error outcome. -/
def TokenBucket.consume (b : TokenBucket) (now sleepEnd : Nat) (n : ℚ) :
    TokenBucket × Option WaitMs :=
  let b1 := b.refill now
  if b1.tokens < n then
    let wait : WaitMs :=
      if b1.refillRate = 0 then WaitMs.infinite
      else WaitMs.finite (((n - b1.tokens) / b1.refillRate) * 1000)
    let b2 := b1.refill sleepEnd
    ({ b2 with tokens := b2.tokens - n }, some wait)
  else
    ({ b1 with tokens := b1.tokens - n }, none)

/-- `TokenBucket.getAvailableTokens`: refill, then `Math.floor`. -/
def TokenBucket.getAvailableTokens (b : TokenBucket) (now : Nat) : Int :=
  ⌊(b.refill now).tokens⌋

/-! ## RateLimiter, strategy-document variant
(`src/rate-limit/rate-limiter.ts`) -/

structure RateLimit where
  capacity : ℚ
  refillRate : ℚ
deriving DecidableEq

/-- `setupLimits()`: the endpoint-pattern limits plus the global `*`
limit, in insertion order. -/
def rateLimiterLimits : List (String × RateLimit) :=
  [("/quotes/", ⟨50, 20⟩),
   ("/orders/", ⟨10, 2⟩),
   ("/accounts/", ⟨20, 5⟩),
   ("*", ⟨100, 30⟩)]

structure RateLimiterState where
  buckets : List (String × TokenBucket)
deriving DecidableEq

/-- `getEndpointPattern`: the first non-`*` configured pattern that the
endpoint `includes`, else `*`. -/
def RateLimiter.getEndpointPattern (endpoint : String) : String :=
  match rateLimiterLimits.find?
      (fun pl => pl.1 != "*" && strIncludes endpoint pl.1) with
  | some pl => pl.1
  | none => "*"

/-- `consumeToken(pattern)`: lazily create the bucket from the
configured limit (no limit configured means no consumption), then
`bucket.consume()` one token. -/
def RateLimiter.consumeToken (s : RateLimiterState) (pattern : String)
    (now sleepEnd : Nat) : RateLimiterState :=
  match alistGet s.buckets pattern with
  | some bucket =>
    ⟨alistSet s.buckets pattern (bucket.consume now sleepEnd 1).1⟩
  | none =>
    match alistGet rateLimiterLimits pattern with
    | none => s
    | some limit =>
      let bucket := TokenBucket.create limit.capacity limit.refillRate now
      ⟨alistSet s.buckets pattern (bucket.consume now sleepEnd 1).1⟩

/-- `checkLimit(endpoint)`: consume from the endpoint-pattern bucket,
then from the global `*` bucket. -/
def RateLimiter.checkLimit (s : RateLimiterState) (endpoint : String)
    (now sleepEnd : Nat) : RateLimiterState :=
  RateLimiter.consumeToken
    (RateLimiter.consumeToken s (RateLimiter.getEndpointPattern endpoint)
      now sleepEnd)
    "*" now sleepEnd

/-! ## RateLimiter, client variant (`src/client/rate-limiter.ts`)

Buckets are keyed by the *full endpoint string*; the configuration is
chosen by pattern.  There is no global bucket. -/

structure RateLimitConfig where
  requestsPerSecond : ℚ
  burstSize : ℚ
deriving DecidableEq

/-- The `defaultConfig` field. -/
def clientDefaultConfig : RateLimitConfig := ⟨10, 20⟩

/-- The `endpointLimits` map, in insertion order. -/
def clientEndpointLimits : List (String × RateLimitConfig) :=
  [("/quotes/", ⟨20, 40⟩),
   ("/orders/", ⟨5, 10⟩),
   ("/accounts/", ⟨10, 20⟩)]

structure RateLimitBucket where
  tokens : ℚ
  lastRefill : Nat
deriving DecidableEq

/-- `getConfigForEndpoint`: first configured pattern the endpoint
`includes`, else the default. -/
def ClientRateLimiter.getConfigForEndpoint (endpoint : String) :
    RateLimitConfig :=
  match clientEndpointLimits.find? (fun pc => strIncludes endpoint pc.1) with
  | some pc => pc.2
  | none => clientDefaultConfig

/-- `refillBucket`. -/
def ClientRateLimiter.refillBucket (b : RateLimitBucket)
    (cfg : RateLimitConfig) (now : Nat) : RateLimitBucket :=
  let timePassed : ℚ := ((now : ℚ) - (b.lastRefill : ℚ)) / 1000
  ⟨min cfg.burstSize (b.tokens + timePassed * cfg.requestsPerSecond), now⟩

/-- `checkLimit(endpoint)`: get-or-create the bucket for the endpoint
(`tokens = burstSize`), refill; if below one token, sleep
`(1 / requestsPerSecond) * 1000` ms once and refill; then deduct one
token unconditionally.  Returns the new bucket map and the sleep
duration, if any.  No global bucket exists in this variant. -/
def ClientRateLimiter.checkLimit (buckets : List (String × RateLimitBucket))
    (endpoint : String) (now sleepEnd : Nat) :
    List (String × RateLimitBucket) × Option ℚ :=
  let cfg := ClientRateLimiter.getConfigForEndpoint endpoint
  let bucket :=
    match alistGet buckets endpoint with
    | some b => b
    | none => ⟨cfg.burstSize, now⟩
  let b1 := ClientRateLimiter.refillBucket bucket cfg now
  if b1.tokens < 1 then
    let waitTime : ℚ := (1 / cfg.requestsPerSecond) * 1000
    let b2 := ClientRateLimiter.refillBucket b1 cfg sleepEnd
    (alistSet buckets endpoint ⟨b2.tokens - 1, b2.lastRefill⟩, some waitTime)
  else
    (alistSet buckets endpoint ⟨b1.tokens - 1, b1.lastRefill⟩, none)

/-! ## CircuitBreaker (`src/rate-limit/circuit-breaker.ts`) -/

inductive CBState where
  | CLOSED
  | OPEN
  | HALF_OPEN
deriving DecidableEq

structure CircuitBreaker where
  state : CBState
  failureCount : Nat
  lastFailureTime : Nat
  threshold : Nat
  timeout : Nat
deriving DecidableEq

/-- The constructor (source defaults: `threshold = 5`,
`timeout = 60000`). -/
def CircuitBreaker.create (threshold timeout : Nat) : CircuitBreaker :=
  ⟨CBState.CLOSED, 0, 0, threshold, timeout⟩

/-- `onSuccess`: reset the failure counter; a HALF_OPEN breaker
closes. -/
def CircuitBreaker.onSuccess (cb : CircuitBreaker) : CircuitBreaker :=
  { cb with
    failureCount := 0
    state := if cb.state = CBState.HALF_OPEN then CBState.CLOSED else cb.state }

/-- `onFailure`: count the failure, record its time; at
`failureCount >= threshold` the breaker opens. -/
def CircuitBreaker.onFailure (cb : CircuitBreaker) (now : Nat) : CircuitBreaker :=
  let c := cb.failureCount + 1
  { cb with
    failureCount := c
    lastFailureTime := now
    state := if cb.threshold ≤ c then CBState.OPEN else cb.state }

/-- The outcome `execute` produces for the caller. -/
inductive ExecResult where
  | ok (v : Nat)
  | opFailed
  | breakerOpenError
deriving DecidableEq

/-- `execute(fn)`.  The wrapped operation is modelled by
`fn : Option Nat` — `some v` means `fn` would resolve with `v`, `none`
that it would reject.  Returns the caller-visible result, the breaker
after the call, and whether `fn` was invoked at all.  While OPEN and
within the cool-down (`now - lastFailureTime > timeout` false), it
throws `Circuit breaker is OPEN` without touching `fn`; past the
cool-down it flips to HALF_OPEN and lets the call through. -/
def CircuitBreaker.execute (cb : CircuitBreaker) (now : Nat)
    (fn : Option Nat) : ExecResult × CircuitBreaker × Bool :=
  let run : CircuitBreaker → ExecResult × CircuitBreaker × Bool :=
    fun cb1 =>
      match fn with
      | some v => (ExecResult.ok v, cb1.onSuccess, true)
      | none => (ExecResult.opFailed, cb1.onFailure now, true)
  if cb.state = CBState.OPEN then
    if now - cb.lastFailureTime > cb.timeout then
      run { cb with state := CBState.HALF_OPEN }
    else
      (ExecResult.breakerOpenError, cb, false)
  else
    run cb

/-- A call outcome as the breaker records it: `onSuccess` for a
resolved call, `onFailure` (at the given time) for a rejected one. -/
inductive CBEvent where
  | success
  | failure (t : Nat)
deriving DecidableEq

def isFailureEv : CBEvent → Bool
  | CBEvent.success => false
  | CBEvent.failure _ => true

/-- Record one call outcome on the breaker. -/
def applyCBEvent (cb : CircuitBreaker) : CBEvent → CircuitBreaker
  | CBEvent.success => cb.onSuccess
  | CBEvent.failure t => cb.onFailure t

/-- Record a sequence of call outcomes. -/
def applyCBEvents (cb : CircuitBreaker) (es : List CBEvent) : CircuitBreaker :=
  es.foldl applyCBEvent cb

/-- Number of failures at the head of the list before the first
success. -/
def leadingFailures : List CBEvent → Nat
  | [] => 0
  | e :: t => if isFailureEv e then leadingFailures t + 1 else 0

/-- Number of consecutive failures at the end of the trace (i.e. since
the last success). -/
def trailingFailures (es : List CBEvent) : Nat :=
  leadingFailures es.reverse

/-! ## ApiClient.handleError (`src/client/api-client.ts`)

The response interceptor's error handler.  Its input is the failed
response's status together with the parsed `retry-after` header
(defaulted to 60), or `none` when no response exists; its output is the
action the `switch` takes. -/

inductive ErrorAction where
  | refreshAndRetry
  | waitAndRetry (seconds : Nat)
  | retryBackoff
  | throwApiError (status : Nat)
  | rethrowOriginal
deriving DecidableEq

/-- `ApiClient.handleError`: 401 refreshes the auth token and re-issues
the original request; 429 sleeps `retry-after` seconds and re-issues;
500/502/503/504 retry with exponential backoff; anything else throws
`ApiError`; an error without a response is re-thrown. -/
def ApiClient.handleError (response : Option (Nat × Nat)) : ErrorAction :=
  match response with
  | none => ErrorAction.rethrowOriginal
  | some (status, retryAfter) =>
    if status = 401 then ErrorAction.refreshAndRetry
    else if status = 429 then ErrorAction.waitAndRetry retryAfter
    else if status = 500 ∨ status = 502 ∨ status = 503 ∨ status = 504 then
      ErrorAction.retryBackoff
    else ErrorAction.throwApiError status

/-! ## The cached GET path under concurrency (`ApiClient.get`)

The updated `ApiClient.get` of the caching document runs, per caller:
cache lookup — on a miss, rate-limit admission, then the upstream call
through the circuit breaker, then a cache write of the result.  The
class holds no in-flight-request map: nothing links two callers of the
same key.  For counting upstream calls under interleaving it suffices
to track, per caller, whether it has (a) not yet read the cache,
(b) observed a miss and is about to call upstream, or (c) finished; the
rate limiter and breaker are stateless pass-throughs on this path when
tokens are plentiful and the breaker is CLOSED, so they are not
replicated here.  `sfStep s i` runs caller `i` one phase. -/

inductive SFPhase where
  | start
  | needCall
  | done (v : Nat)
deriving DecidableEq

structure SFSystem where
  cache : Option Nat
  callers : List SFPhase
  upstreamCalls : Nat
deriving DecidableEq

/-- The value the upstream transport returns. -/
def upstreamValue : Nat := 42

/-- One scheduler step: caller `i` either performs its cache lookup
(hit finishes it, a miss commits it to calling upstream) or performs
its upstream call, which writes the cache. -/
def sfStep (s : SFSystem) (i : Nat) : SFSystem :=
  match s.callers[i]? with
  | some SFPhase.start =>
    match s.cache with
    | some v => { s with callers := s.callers.set i (SFPhase.done v) }
    | none => { s with callers := s.callers.set i SFPhase.needCall }
  | some SFPhase.needCall =>
    { s with
      cache := some upstreamValue
      callers := s.callers.set i (SFPhase.done upstreamValue)
      upstreamCalls := s.upstreamCalls + 1 }
  | _ => s

/-- Run a schedule of caller indices against `m` fresh callers and an
empty cache. -/
def sfRun (m : Nat) (sched : List Nat) : SFSystem :=
  sched.foldl sfStep ⟨none, List.replicate m SFPhase.start, 0⟩

/-! ## TradingService and the order risk pipeline

`TradingService.validateOrder` / `placeOrder`
(`src/services/trading.service.ts`) are in the repository; the
`RiskManager` of the trading-service task document is declared there
but has no implementation, so its risk check is modelled from the
spec. -/

inductive Side where
  | buy
  | sell
deriving DecidableEq

inductive OrderKind where
  | market
  | limit
  | stop_loss
  | stop_limit
deriving DecidableEq

/-- An order request (`OrderRequest`): the quantity string is modelled
by its parsed numeric value. -/
structure OrderRequest where
  symbol : String
  side : Side
  kind : OrderKind
  quantity : ℚ
  price : Option ℚ
  stopPrice : Option ℚ
deriving DecidableEq

/-- `TradingService.validateOrder`: the structural checks, in source
order; `some msg` is the thrown error, `none` means the order is
valid.  (`!order.symbol` is true exactly for the empty string;
`!order.quantity || parseFloat(order.quantity) <= 0` collapses to
`quantity ≤ 0` on the parsed value.) -/
def validateOrder (o : OrderRequest) : Option String :=
  if o.symbol = "" then some "Symbol is required"
  else if o.quantity ≤ 0 then some "Quantity must be positive"
  else if o.kind = OrderKind.limit ∧ o.price = none then
    some "Limit orders require a price"
  else if o.kind = OrderKind.stop_loss ∧ o.stopPrice = none then
    some "Stop loss orders require a stop price"
  else none

/-- A risk assessment outcome. -/
inductive RiskOutcome where
  | approve
  | deny (reason : String)
deriving DecidableEq

/-- Modelled from the spec: `RiskManager.assessRisk` /
`validateBuyingPower` are declared in the trading-service task document
(`packages/trading-service`) with no implementation in the repository.
Per the spec's risk check, the estimated cost of a buy is the quantity
times the latest cached quote price, and the intent is denied with
reason `insufficient_buying_power` when that cost exceeds the account's
available buying power. -/
def RiskManager.assessRisk (o : OrderRequest) (cachedQuote buyingPower : ℚ) :
    RiskOutcome :=
  if o.side = Side.buy ∧ o.quantity * cachedQuote > buyingPower then
    RiskOutcome.deny "insufficient_buying_power"
  else RiskOutcome.approve

/-- The pipeline's caller-visible outcome. -/
inductive PlaceOrderResult where
  | validationError (msg : String)
  | riskRejected (reason : String)
  | submitted
deriving DecidableEq

/-- The order pipeline: `TradingService.placeOrder` validates and then
posts to `/orders/`; the risk pipeline interposes the (spec-modelled)
risk assessment between validation and submission.  Returns the outcome
and whether an order-placement call was posted to the transport. -/
def placeOrderPipeline (o : OrderRequest) (cachedQuote buyingPower : ℚ) :
    PlaceOrderResult × Bool :=
  match validateOrder o with
  | some msg => (PlaceOrderResult.validationError msg, false)
  | none =>
    match RiskManager.assessRisk o cachedQuote buyingPower with
    | RiskOutcome.deny r => (PlaceOrderResult.riskRejected r, false)
    | RiskOutcome.approve => (PlaceOrderResult.submitted, true)

/-! # Claims -/

/-- C1: for every market buy order intent that passes structural
validation and whose estimated cost (quantity times the latest cached
quote price) exceeds the account's available buying power, the order
risk pipeline returns `RiskRejected` with reason
`insufficient_buying_power` and no order-placement call is posted to
the transport.  (The risk step is modelled from the spec, as the
repository declares `RiskManager` without implementing it.) -/
theorem riskPipeline_rejects_insufficient_buying_power
    (o : OrderRequest) (quote buyingPower : ℚ)
    (hside : o.side = Side.buy) (_hkind : o.kind = OrderKind.market)
    (hvalid : validateOrder o = none)
    (hcost : o.quantity * quote > buyingPower) :
    placeOrderPipeline o quote buyingPower =
      (PlaceOrderResult.riskRejected "insufficient_buying_power", false) := by
  unfold placeOrderPipeline RiskManager.assessRisk
  rw [hvalid, if_pos ⟨hside, hcost⟩]

/-- Witness for C1, at the spec's own scenario: a market buy of 10
shares of AAPL against a cached quote of 150 and buying power 1000. -/
theorem riskPipeline_rejects_witness :
    validateOrder ⟨"AAPL", Side.buy, OrderKind.market, 10, none, none⟩ = none ∧
    (10 : ℚ) * 150 > 1000 ∧
    placeOrderPipeline ⟨"AAPL", Side.buy, OrderKind.market, 10, none, none⟩ 150 1000 =
      (PlaceOrderResult.riskRejected "insufficient_buying_power", false) :=
  ⟨by decide, by norm_num,
    riskPipeline_rejects_insufficient_buying_power _ _ _ rfl rfl (by decide) (by norm_num)⟩

/-- C2 (failing evaluation): in the shipped non-production configuration
(L1 only), `set("quote:AAPL", 42, ttl := 10)` at time 0 followed by a
`get` 5000 ms later — strictly within the 10-second ttl that the same
call hands to Redis `SETEX` — returns a miss: the L1 write added
`Math.min(10, 60000)` *milliseconds* to the clock, so the entry expired
10 ms after the write. -/
theorem cacheManager_l1_ttl_unit_slip :
    (CacheManager.get devCacheConfig
      (CacheManager.set devCacheConfig CacheState.empty "quote:AAPL" 42 (some 10) 0)
      "quote:AAPL" 5000).1 = none ∧ 5000 < 10 * 1000 := by decide

/-- C3 (failing evaluation): with both tiers enabled,
`invalidateAfterOrder` leaves the key `positions:ACC1` — which matches
the pattern `positions:*` under both the Redis glob and the L1 regex —
retrievable from the cache, because the source calls `cache.delete`
on the literal string `positions:*` instead of pattern-clearing. -/
theorem invalidateAfterOrder_leaves_matching_key :
    (CacheManager.get prodCacheConfig
        (invalidateAfterOrder prodCacheConfig
          (CacheManager.set prodCacheConfig CacheState.empty "positions:ACC1" 7 (some 60) 0))
        "positions:ACC1" 1000).1 = some 7
    ∧ redisGlobMatch "positions:ACC1" "positions:*" = true
    ∧ CacheManager.matchesPattern "positions:ACC1" "positions:*" = true := by decide

/-- C4: an OPEN breaker within the cool-down (`now - lastFailureTime`
not strictly greater than `timeout`) throws the breaker-open error
without invoking the wrapped operation and leaves the breaker
unchanged (hence OPEN); and the wrapped operation is admitted — the
OPEN → HALF_OPEN flip — only when the cool-down since the last recorded
failure has strictly elapsed, never earlier. -/
theorem breaker_open_blocks_until_cooldown
    (cb : CircuitBreaker) (now : Nat) (fn : Option Nat)
    (hopen : cb.state = CBState.OPEN) :
    (¬ (now - cb.lastFailureTime > cb.timeout) →
      cb.execute now fn = (ExecResult.breakerOpenError, cb, false)) ∧
    ((cb.execute now fn).2.2 = true → now - cb.lastFailureTime > cb.timeout) := by
  unfold CircuitBreaker.execute
  rw [if_pos hopen]
  constructor
  · intro h; rw [if_neg h]
  · intro h
    by_cases hc : now - cb.lastFailureTime > cb.timeout
    · exact hc
    · rw [if_neg hc] at h; simp at h

/-- Witness for C4: a breaker that opened at time 1000 with a 60000 ms
cool-down, probed at time 30000 with an operation that would succeed. -/
theorem breaker_open_blocks_witness :
    ((⟨CBState.OPEN, 5, 1000, 5, 60000⟩ : CircuitBreaker).state = CBState.OPEN) ∧
    ((¬ ((30000 : Nat) - 1000 > 60000) →
        CircuitBreaker.execute ⟨CBState.OPEN, 5, 1000, 5, 60000⟩ 30000 (some 7) =
          (ExecResult.breakerOpenError, ⟨CBState.OPEN, 5, 1000, 5, 60000⟩, false)) ∧
      ((CircuitBreaker.execute ⟨CBState.OPEN, 5, 1000, 5, 60000⟩ 30000 (some 7)).2.2 = true →
        30000 - 1000 > 60000)) :=
  ⟨rfl, breaker_open_blocks_until_cooldown
    ⟨CBState.OPEN, 5, 1000, 5, 60000⟩ 30000 (some 7) rfl⟩

/-- C5 (counterexample): on a 401 response the error handler does not
surface the error to the caller — it refreshes the auth token and
re-issues the original request, so the claim that an auth rejection is
surfaced immediately without retry is false. -/
theorem handleError_401_retries_not_surfaces :
    ApiClient.handleError (some (401, 60)) = ErrorAction.refreshAndRetry ∧
    ApiClient.handleError (some (401, 60)) ≠ ErrorAction.throwApiError 401 := by decide

/-- C5 (amended): a 401 response triggers a token refresh followed by a
retry of the original request, while every other 4xx status apart from
429 is surfaced immediately as an `ApiError` without retry. -/
theorem handleError_only_non401_4xx_surface
    : ApiClient.handleError (some (401, 60)) = ErrorAction.refreshAndRetry ∧
      ∀ s r, 400 ≤ s → s < 500 → s ≠ 401 → s ≠ 429 →
        ApiClient.handleError (some (s, r)) = ErrorAction.throwApiError s := by
  constructor
  · decide
  · intro s r h1 h2 h3 h4
    show (if s = 401 then ErrorAction.refreshAndRetry
      else if s = 429 then ErrorAction.waitAndRetry r
      else if s = 500 ∨ s = 502 ∨ s = 503 ∨ s = 504 then ErrorAction.retryBackoff
      else ErrorAction.throwApiError s) = ErrorAction.throwApiError s
    rw [if_neg h3, if_neg h4, if_neg (by omega)]

/-- Witness for C5's amended theorem, at status 404. -/
theorem handleError_only_non401_4xx_surface_witness :
    (400 ≤ 404 ∧ 404 < 500 ∧ 404 ≠ 401 ∧ 404 ≠ 429) ∧
    ApiClient.handleError (some (404, 60)) = ErrorAction.throwApiError 404 :=
  ⟨by decide, handleError_only_non401_4xx_surface.2 404 60
    (by decide) (by decide) (by decide) (by decide)⟩

/-- C6 (counterexample): a bucket constructed with capacity 0 and
refill rate 0 does not fail fast with a configuration error on
`consume()` — no error outcome exists in the code path at all; instead
the computed wait time is the JavaScript `Infinity` (division of the
deficit by the zero refill rate) and the token count is then driven to
−1. -/
theorem consume_zero_config_no_error :
    (TokenBucket.consume ⟨0, 0, 0, 0⟩ 0 0 1).2 = some WaitMs.infinite ∧
    (TokenBucket.consume ⟨0, 0, 0, 0⟩ 0 0 1).1.tokens = -1 := by
  norm_num [TokenBucket.consume, TokenBucket.refill]

/-- C6 (amended): `consume` never loops — it sleeps at most once and
then deducts the requested tokens unconditionally (the returned bucket
always holds the post-refill token count minus `n`, whether or not a
sleep happened), and it performs no configuration validation; under a
positive refill rate the single computed wait is finite. -/
theorem consume_single_sleep_then_deducts
    (b : TokenBucket) (now sleepEnd : Nat) (n : ℚ) :
    ((b.consume now sleepEnd n).2 = none →
      (b.consume now sleepEnd n).1.tokens = (b.refill now).tokens - n) ∧
    (∀ w, (b.consume now sleepEnd n).2 = some w →
      (b.consume now sleepEnd n).1.tokens = ((b.refill now).refill sleepEnd).tokens - n) ∧
    (0 < b.refillRate → ∀ w, (b.consume now sleepEnd n).2 = some w →
      ∃ q, w = WaitMs.finite q) := by
  simp only [TokenBucket.consume]
  by_cases h : (b.refill now).tokens < n
  · rw [if_pos h]
    refine ⟨by simp, ?_, ?_⟩
    · intro w hw
      rfl
    · intro hr w hw
      have hne : (b.refill now).refillRate ≠ 0 := ne_of_gt hr
      rw [if_neg hne] at hw
      exact ⟨_, (Option.some_injective _ hw).symm⟩
  · rw [if_neg h]
    exact ⟨fun _ => rfl, fun w hw => by simp at hw, fun _ w hw => by simp at hw⟩

/-- Witness for C6's amended theorem: a fresh 10-token bucket serves one
token with no sleep. -/
theorem consume_single_sleep_witness :
    (TokenBucket.consume (TokenBucket.create 10 2 0) 0 0 1).2 = none ∧
    (TokenBucket.consume (TokenBucket.create 10 2 0) 0 0 1).1.tokens =
      (TokenBucket.refill (TokenBucket.create 10 2 0) 0).tokens - 1 :=
  ⟨by norm_num [TokenBucket.consume, TokenBucket.refill, TokenBucket.create],
    (consume_single_sleep_then_deducts (TokenBucket.create 10 2 0) 0 0 1).1
      (by norm_num [TokenBucket.consume, TokenBucket.refill, TokenBucket.create])⟩

/-- C7 (counterexample): in the client-variant rate limiter, a
successful admission for `/orders/123` from a fresh limiter leaves a
bucket map holding exactly the endpoint's own bucket — no `*` global
bucket exists, so no token is consumed from a global bucket. -/
theorem clientCheckLimit_no_global_bucket :
    ((ClientRateLimiter.checkLimit [] "/orders/123" 0 0).1.map Prod.fst =
      ["/orders/123"]) ∧
    alistGet (ClientRateLimiter.checkLimit [] "/orders/123" 0 0).1 "*" = none := by
  have hcfg : ClientRateLimiter.getConfigForEndpoint "/orders/123" = ⟨5, 10⟩ := rfl
  simp only [ClientRateLimiter.checkLimit, hcfg, alistGet, alistSet,
    ClientRateLimiter.refillBucket, List.find?, List.filter]
  norm_num
  exact fun h => absurd h (by decide)

/-- Helper for C7: filtering out another key's entries does not change
a lookup. -/
theorem alistGet_filter_ne {A : Type} (m : List (String × A)) (k q : String)
    (h : q ≠ k) :
    alistGet (m.filter (fun p => p.1 != k)) q = alistGet m q := by
  unfold alistGet
  rw [List.find?_filter]
  have hfun : (fun a : String × A => decide ((a.1 != k) = true ∧ (a.1 == q) = true)) =
      (fun p : String × A => p.1 == q) := by
    funext a
    by_cases hq : a.1 = q
    · simp [hq, h]
    · simp [hq]
  exact congrArg (fun pr => (List.find? pr m).map Prod.snd) hfun

/-- Helper for C7: a `Map.set` makes its own key retrievable. -/
theorem alistGet_set_self {A : Type} (m : List (String × A)) (k : String) (v : A) :
    alistGet (alistSet m k v) k = some v := by
  unfold alistGet alistSet
  rw [List.find?_cons_of_pos _ (by simp)]
  rfl

/-- Helper for C7: a `Map.set` leaves every other key's entry alone. -/
theorem alistGet_set_ne {A : Type} (m : List (String × A)) (k q : String) (v : A)
    (h : q ≠ k) :
    alistGet (alistSet m k v) q = alistGet m q := by
  show alistGet ((k, v) :: m.filter (fun p => p.1 != k)) q = alistGet m q
  unfold alistGet
  rw [List.find?_cons_of_neg _ (by simp; exact fun hh => h hh.symm)]
  exact alistGet_filter_ne m k q h

/-- Helper for C7: a one-token `consume` leaves exactly one token less
than the refilled count (refilled once more after the single sleep when
the bucket was short). -/
theorem consume_one_from_refilled (b : TokenBucket) (now sleepEnd : Nat) :
    (b.consume now sleepEnd 1).1.tokens =
      (if (b.refill now).tokens < 1 then ((b.refill now).refill sleepEnd).tokens
       else (b.refill now).tokens) - 1 := by
  simp only [TokenBucket.consume]
  by_cases h : (b.refill now).tokens < 1
  · rw [if_pos h, if_pos h]
  · rw [if_neg h, if_neg h]

/-- Helper for C7: `consumeToken p` never touches a bucket keyed by a
different pattern. -/
theorem consumeToken_get_ne (s : RateLimiterState) (p q : String)
    (now sleepEnd : Nat) (h : q ≠ p) :
    alistGet (RateLimiter.consumeToken s p now sleepEnd).buckets q =
      alistGet s.buckets q := by
  unfold RateLimiter.consumeToken
  cases hb : alistGet s.buckets p with
  | some b => exact alistGet_set_ne _ _ _ _ h
  | none =>
    cases hl : alistGet rateLimiterLimits p with
    | none => rfl
    | some limit => exact alistGet_set_ne _ _ _ _ h

/-- Helper for C7: `consumeToken p` on an existing bucket replaces it by
its one-token `consume`. -/
theorem consumeToken_get_existing (s : RateLimiterState) (p : String)
    (now sleepEnd : Nat) (b : TokenBucket) (hb : alistGet s.buckets p = some b) :
    alistGet (RateLimiter.consumeToken s p now sleepEnd).buckets p =
      some (b.consume now sleepEnd 1).1 := by
  unfold RateLimiter.consumeToken
  rw [hb]
  exact alistGet_set_self _ _ _

/-- Helper for C7: `consumeToken p` with no bucket yet creates one from
the configured limit and consumes one token from it. -/
theorem consumeToken_get_fresh (s : RateLimiterState) (p : String)
    (now sleepEnd : Nat) (limit : RateLimit)
    (hb : alistGet s.buckets p = none)
    (hl : alistGet rateLimiterLimits p = some limit) :
    alistGet (RateLimiter.consumeToken s p now sleepEnd).buckets p =
      some ((TokenBucket.create limit.capacity limit.refillRate now).consume
        now sleepEnd 1).1 := by
  unfold RateLimiter.consumeToken
  rw [hb, hl]
  exact alistGet_set_self _ _ _

/-- Helper for C7: whatever pattern `getEndpointPattern` returns has a
configured limit (the three endpoint patterns and the global `*` all
do). -/
theorem getEndpointPattern_limit (endpoint : String) :
    ∃ limit, alistGet rateLimiterLimits (RateLimiter.getEndpointPattern endpoint) =
      some limit := by
  unfold RateLimiter.getEndpointPattern
  cases hf : rateLimiterLimits.find?
      (fun pl => pl.1 != "*" && strIncludes endpoint pl.1) with
  | none => exact ⟨⟨100, 30⟩, rfl⟩
  | some pl =>
    have hmem : pl ∈ rateLimiterLimits := List.mem_of_find?_eq_some hf
    have hpred := List.find?_some hf
    unfold rateLimiterLimits at hmem
    rcases List.mem_cons.mp hmem with h | hmem
    · exact ⟨⟨50, 20⟩, by rw [h]; rfl⟩
    rcases List.mem_cons.mp hmem with h | hmem
    · exact ⟨⟨10, 2⟩, by rw [h]; rfl⟩
    rcases List.mem_cons.mp hmem with h | hmem
    · exact ⟨⟨20, 5⟩, by rw [h]; rfl⟩
    rcases List.mem_cons.mp hmem with h | hmem
    · rw [h] at hpred
      simp at hpred
    · simp at hmem

/-- C7 (amended): for every limiter state and every admission under a
specific endpoint pattern, the strategy-document `checkLimit` consumes
exactly one token from the matched endpoint-pattern bucket and exactly
one token from the global `*` bucket — an existing bucket is replaced
by its one-token `consume`, a missing bucket is created from its
configured limit and then consumed from, every other bucket is left
untouched, and a one-token `consume` leaves exactly one token less than
the refilled count.  The client-variant `checkLimit`, for every bucket
map, touches only the bucket keyed by the full endpoint string — in
particular any `*` bucket is left alone, so no global token is ever
consumed — and that bucket ends exactly one token below its refilled
count. -/
theorem rateLimiter_scope_and_global_consumption
    (s : RateLimiterState) (buckets : List (String × RateLimitBucket))
    (endpoint : String) (now sleepEnd : Nat)
    (hpat : RateLimiter.getEndpointPattern endpoint ≠ "*") :
    (∀ b1 : TokenBucket, (b1.consume now sleepEnd 1).1.tokens =
      (if (b1.refill now).tokens < 1 then ((b1.refill now).refill sleepEnd).tokens
       else (b1.refill now).tokens) - 1) ∧
    (∀ k, k ≠ RateLimiter.getEndpointPattern endpoint → k ≠ "*" →
      alistGet (RateLimiter.checkLimit s endpoint now sleepEnd).buckets k =
        alistGet s.buckets k) ∧
    (∀ b, alistGet s.buckets (RateLimiter.getEndpointPattern endpoint) = some b →
      alistGet (RateLimiter.checkLimit s endpoint now sleepEnd).buckets
          (RateLimiter.getEndpointPattern endpoint) =
        some (b.consume now sleepEnd 1).1) ∧
    (alistGet s.buckets (RateLimiter.getEndpointPattern endpoint) = none →
      ∃ limit, alistGet rateLimiterLimits (RateLimiter.getEndpointPattern endpoint) =
          some limit ∧
        alistGet (RateLimiter.checkLimit s endpoint now sleepEnd).buckets
            (RateLimiter.getEndpointPattern endpoint) =
          some ((TokenBucket.create limit.capacity limit.refillRate now).consume
            now sleepEnd 1).1) ∧
    (∀ g, alistGet s.buckets "*" = some g →
      alistGet (RateLimiter.checkLimit s endpoint now sleepEnd).buckets "*" =
        some (g.consume now sleepEnd 1).1) ∧
    (alistGet s.buckets "*" = none →
      alistGet (RateLimiter.checkLimit s endpoint now sleepEnd).buckets "*" =
        some ((TokenBucket.create 100 30 now).consume now sleepEnd 1).1) ∧
    (∀ k, k ≠ endpoint →
      alistGet (ClientRateLimiter.checkLimit buckets endpoint now sleepEnd).1 k =
        alistGet buckets k) ∧
    (∃ b, alistGet (ClientRateLimiter.checkLimit buckets endpoint now sleepEnd).1
        endpoint = some b ∧
      (b.tokens = (ClientRateLimiter.refillBucket
          ((alistGet buckets endpoint).getD
            ⟨(ClientRateLimiter.getConfigForEndpoint endpoint).burstSize, now⟩)
          (ClientRateLimiter.getConfigForEndpoint endpoint) now).tokens - 1 ∨
       b.tokens = (ClientRateLimiter.refillBucket
          (ClientRateLimiter.refillBucket
            ((alistGet buckets endpoint).getD
              ⟨(ClientRateLimiter.getConfigForEndpoint endpoint).burstSize, now⟩)
            (ClientRateLimiter.getConfigForEndpoint endpoint) now)
          (ClientRateLimiter.getConfigForEndpoint endpoint) sleepEnd).tokens - 1)) := by
  have hck : RateLimiter.checkLimit s endpoint now sleepEnd =
      RateLimiter.consumeToken
        (RateLimiter.consumeToken s (RateLimiter.getEndpointPattern endpoint)
          now sleepEnd)
        "*" now sleepEnd := rfl
  refine ⟨fun b1 => consume_one_from_refilled b1 now sleepEnd, ?_, ?_, ?_, ?_, ?_, ?_, ?_⟩
  · intro k hk1 hk2
    rw [hck, consumeToken_get_ne _ _ _ _ _ hk2, consumeToken_get_ne _ _ _ _ _ hk1]
  · intro b hb
    rw [hck, consumeToken_get_ne _ _ _ _ _ hpat,
      consumeToken_get_existing _ _ _ _ b hb]
  · intro hnone
    obtain ⟨limit, hl⟩ := getEndpointPattern_limit endpoint
    exact ⟨limit, hl, by
      rw [hck, consumeToken_get_ne _ _ _ _ _ hpat,
        consumeToken_get_fresh _ _ _ _ limit hnone hl]⟩
  · intro g hg
    rw [hck]
    exact consumeToken_get_existing _ _ _ _ g
      (by rw [consumeToken_get_ne _ _ _ _ _ (Ne.symm hpat)]; exact hg)
  · intro hnone
    rw [hck]
    exact consumeToken_get_fresh _ _ _ _ ⟨100, 30⟩
      (by rw [consumeToken_get_ne _ _ _ _ _ (Ne.symm hpat)]; exact hnone) rfl
  · intro k hk
    cases halist : alistGet buckets endpoint with
    | some b0 =>
      simp only [ClientRateLimiter.checkLimit, halist]
      split
      · exact alistGet_set_ne _ _ _ _ hk
      · exact alistGet_set_ne _ _ _ _ hk
    | none =>
      simp only [ClientRateLimiter.checkLimit, halist]
      split
      · exact alistGet_set_ne _ _ _ _ hk
      · exact alistGet_set_ne _ _ _ _ hk
  · cases halist : alistGet buckets endpoint with
    | some b0 =>
      simp only [ClientRateLimiter.checkLimit, halist, Option.getD]
      split
      · exact ⟨_, alistGet_set_self _ _ _, Or.inr rfl⟩
      · exact ⟨_, alistGet_set_self _ _ _, Or.inl rfl⟩
    | none =>
      simp only [ClientRateLimiter.checkLimit, halist, Option.getD]
      split
      · exact ⟨_, alistGet_set_self _ _ _, Or.inr rfl⟩
      · exact ⟨_, alistGet_set_self _ _ _, Or.inl rfl⟩

/-- Witness for C7's amended theorem, at a non-fresh limiter: both the
`/orders/` bucket and the `*` bucket of the strategy-document limiter
are replaced by their one-token consume, and the client-variant
limiter leaves an unrelated key untouched. -/
theorem rateLimiter_scope_and_global_witness :
    RateLimiter.getEndpointPattern "/orders/123" ≠ "*" ∧
    alistGet (RateLimiter.checkLimit
        ⟨[("/orders/", ⟨9, 500, 10, 2⟩), ("*", ⟨50, 500, 100, 30⟩)]⟩
        "/orders/123" 1000 1500).buckets
      (RateLimiter.getEndpointPattern "/orders/123") =
      some ((TokenBucket.mk 9 500 10 2).consume 1000 1500 1).1 ∧
    alistGet (RateLimiter.checkLimit
        ⟨[("/orders/", ⟨9, 500, 10, 2⟩), ("*", ⟨50, 500, 100, 30⟩)]⟩
        "/orders/123" 1000 1500).buckets "*" =
      some ((TokenBucket.mk 50 500 100 30).consume 1000 1500 1).1 ∧
    alistGet (ClientRateLimiter.checkLimit [("/orders/123", ⟨3, 500⟩)]
        "/orders/123" 1000 1500).1 "/quotes/q" =
      alistGet [("/orders/123", (⟨3, 500⟩ : RateLimitBucket))] "/quotes/q" :=
  ⟨by decide,
   (rateLimiter_scope_and_global_consumption
      ⟨[("/orders/", ⟨9, 500, 10, 2⟩), ("*", ⟨50, 500, 100, 30⟩)]⟩
      [("/orders/123", ⟨3, 500⟩)] "/orders/123" 1000 1500 (by decide)).2.2.1
      ⟨9, 500, 10, 2⟩ (by decide),
   (rateLimiter_scope_and_global_consumption
      ⟨[("/orders/", ⟨9, 500, 10, 2⟩), ("*", ⟨50, 500, 100, 30⟩)]⟩
      [("/orders/123", ⟨3, 500⟩)] "/orders/123" 1000 1500 (by decide)).2.2.2.2.1
      ⟨50, 500, 100, 30⟩ (by decide),
   (rateLimiter_scope_and_global_consumption
      ⟨[("/orders/", ⟨9, 500, 10, 2⟩), ("*", ⟨50, 500, 100, 30⟩)]⟩
      [("/orders/123", ⟨3, 500⟩)] "/orders/123" 1000 1500 (by decide)).2.2.2.2.2.2.1
      "/quotes/q" (by decide)⟩

/-- C8 (counterexample): two concurrent callers of the cached GET path
for the same missing key, interleaved so that both perform their cache
lookup before either upstream call completes, produce two upstream
transport calls — not one.  `ApiClient` holds no in-flight-request map,
so nothing coalesces the callers. -/
theorem sf_two_concurrent_misses_two_calls :
    (sfRun 2 [0, 1, 0, 1]).upstreamCalls = 2 ∧ 2 ≠ 1 := by decide

/-- Helper for C8's amended theorem: scheduling the cache-lookup phase
of callers `s0, s0+1, …` against an empty cache turns each of them into
an upstream caller without any upstream call happening. -/
theorem sfFold_reads : ∀ (n s0 : Nat) (pre : List SFPhase), pre.length = s0 →
    (List.range' s0 n).foldl sfStep ⟨none, pre ++ List.replicate n SFPhase.start, 0⟩ =
      ⟨none, pre ++ List.replicate n SFPhase.needCall, 0⟩
  | 0, s0, pre, h => by simp
  | n+1, s0, pre, h => by
    rw [List.range'_succ, List.foldl_cons]
    have hget : (pre ++ List.replicate (n+1) SFPhase.start)[s0]? = some SFPhase.start := by
      rw [List.getElem?_append_right (by omega)]
      simp [h]
    have hset : (pre ++ List.replicate (n+1) SFPhase.start).set s0 SFPhase.needCall =
        (pre ++ [SFPhase.needCall]) ++ List.replicate n SFPhase.start := by
      rw [List.set_append_right _ _ (by omega), h, Nat.sub_self, List.replicate_succ,
        List.set_cons_zero, List.append_assoc]
      rfl
    have hstep : sfStep ⟨none, pre ++ List.replicate (n+1) SFPhase.start, 0⟩ s0 =
        ⟨none, (pre ++ [SFPhase.needCall]) ++ List.replicate n SFPhase.start, 0⟩ := by
      simp only [sfStep, hget, hset]
    rw [hstep, sfFold_reads n (s0+1) (pre ++ [SFPhase.needCall]) (by simp [h])]
    simp [List.append_assoc, List.replicate_succ]

/-- Helper for C8's amended theorem: each caller that has observed a
miss performs its own upstream call — `n` committed callers produce `n`
further calls. -/
theorem sfFold_calls : ∀ (n s0 calls : Nat) (c : Option Nat) (pre : List SFPhase),
    pre.length = s0 →
    (List.range' s0 n).foldl sfStep ⟨c, pre ++ List.replicate n SFPhase.needCall, calls⟩ =
      ⟨if n = 0 then c else some upstreamValue,
       pre ++ List.replicate n (SFPhase.done upstreamValue), calls + n⟩
  | 0, s0, calls, c, pre, h => by simp
  | n+1, s0, calls, c, pre, h => by
    rw [List.range'_succ, List.foldl_cons]
    have hget : (pre ++ List.replicate (n+1) SFPhase.needCall)[s0]? = some SFPhase.needCall := by
      rw [List.getElem?_append_right (by omega)]
      simp [h]
    have hset : (pre ++ List.replicate (n+1) SFPhase.needCall).set s0
          (SFPhase.done upstreamValue) =
        (pre ++ [SFPhase.done upstreamValue]) ++ List.replicate n SFPhase.needCall := by
      rw [List.set_append_right _ _ (by omega), h, Nat.sub_self, List.replicate_succ,
        List.set_cons_zero, List.append_assoc]
      rfl
    have hstep : sfStep ⟨c, pre ++ List.replicate (n+1) SFPhase.needCall, calls⟩ s0 =
        ⟨some upstreamValue,
         (pre ++ [SFPhase.done upstreamValue]) ++ List.replicate n SFPhase.needCall,
         calls + 1⟩ := by
      simp only [sfStep, hget, hset]
    rw [hstep, sfFold_calls n (s0+1) (calls+1) (some upstreamValue)
      (pre ++ [SFPhase.done upstreamValue]) (by simp [h])]
    have harith : calls + 1 + n = calls + (n + 1) := by omega
    simp [List.append_assoc, List.replicate_succ, harith]

/-- C8 (amended): the GET path has no single-flight coalescing — when
`m` concurrent callers of the same missing key all perform their cache
lookup before any upstream call completes, every one of them issues its
own upstream call, for `m` calls in total; only a caller whose lookup
happens after another caller's completed call is served from the cache
(the sequential schedule of two callers produces a single upstream
call). -/
theorem sf_every_missed_caller_calls_upstream (m : Nat) :
    (sfRun m (List.range m ++ List.range m)).upstreamCalls = m ∧
    (sfRun 2 [0, 0, 1]).upstreamCalls = 1 := by
  refine ⟨?_, by decide⟩
  unfold sfRun
  rw [List.foldl_append, List.range_eq_range']
  rw [show (List.replicate m SFPhase.start) = [] ++ List.replicate m SFPhase.start from
    (List.nil_append _).symm]
  rw [sfFold_reads m 0 [] rfl, sfFold_calls m 0 0 none [] rfl]
  simp

/-- The bucket states a `TokenBucket` can actually be in: freshly
constructed, or the result of a `refill` or a `consume` of a
non-negative token count (the source only ever calls `consume()`, i.e.
one token) on a reachable bucket. -/
inductive BucketReachable : TokenBucket → Prop where
  | init (capacity refillRate : ℚ) (now : Nat) :
      BucketReachable (TokenBucket.create capacity refillRate now)
  | refillStep (b : TokenBucket) (now : Nat) :
      BucketReachable b → BucketReachable (b.refill now)
  | consumeStep (b : TokenBucket) (now sleepEnd : Nat) (n : ℚ) (hn : 0 ≤ n) :
      BucketReachable b → BucketReachable (b.consume now sleepEnd n).1

/-- C9: every reachable token bucket holds at most `capacity` tokens —
the bucket starts at capacity, `refill` clamps at capacity, and
`consume` only decreases the count — and consequently
`getAvailableTokens` never reports more than the capacity. -/
theorem tokenBucket_never_exceeds_capacity (b : TokenBucket)
    (h : BucketReachable b) :
    b.tokens ≤ b.capacity ∧
    ∀ now : Nat, ((b.getAvailableTokens now : ℚ) ≤ b.capacity) := by
  have hrefill : ∀ (b1 : TokenBucket) (now : Nat),
      (b1.refill now).tokens ≤ (b1.refill now).capacity := by
    intro b1 now
    exact min_le_left _ _
  have htok : b.tokens ≤ b.capacity := by
    induction h with
    | init capacity refillRate now => exact le_refl _
    | refillStep b1 now _ _ => exact hrefill b1 now
    | consumeStep b1 now sleepEnd n hn _ _ =>
      unfold TokenBucket.consume
      by_cases hc : (b1.refill now).tokens < n
      · rw [if_pos hc]
        exact le_trans (sub_le_self _ hn) (hrefill _ _)
      · rw [if_neg hc]
        exact le_trans (sub_le_self _ hn) (hrefill _ _)
  refine ⟨htok, fun now => ?_⟩
  calc ((b.getAvailableTokens now : ℚ)) ≤ (b.refill now).tokens := Int.floor_le _
    _ ≤ b.capacity := hrefill b now

/-- Witness for C9: the global bucket of the strategy document
(capacity 100, refill 30/s), freshly constructed. -/
theorem tokenBucket_capacity_witness :
    (TokenBucket.create 100 30 0).tokens ≤ (TokenBucket.create 100 30 0).capacity ∧
    ∀ now : Nat,
      (((TokenBucket.create 100 30 0).getAvailableTokens now : ℚ) ≤
        (TokenBucket.create 100 30 0).capacity) :=
  tokenBucket_never_exceeds_capacity _ (BucketReachable.init 100 30 0)

/-- Helper for C10: recording events is a left fold, so recording one
more event applies it to the accumulated breaker. -/
theorem applyCBEvents_concat (cb : CircuitBreaker) (es : List CBEvent) (e : CBEvent) :
    applyCBEvents cb (es ++ [e]) = applyCBEvent (applyCBEvents cb es) e := by
  simp [applyCBEvents, List.foldl_append]

/-- Helper for C10: a trailing failure extends the consecutive-failure
suffix by one; a trailing success resets it. -/
theorem trailingFailures_concat (es : List CBEvent) (e : CBEvent) :
    trailingFailures (es ++ [e]) =
      if isFailureEv e then trailingFailures es + 1 else 0 := by
  unfold trailingFailures
  rw [List.reverse_append]
  cases e <;> simp [leadingFailures, isFailureEv]

/-- Helper for C10: the breaker's failure counter equals the number of
consecutive failures at the end of the recorded trace — `onSuccess`
zeroes it, `onFailure` increments it. -/
theorem applyCBEvents_failureCount (th tmo : Nat) (es : List CBEvent) :
    (applyCBEvents (CircuitBreaker.create th tmo) es).failureCount =
      trailingFailures es := by
  induction es using List.reverseRecOn with
  | nil => rfl
  | append_singleton es e ih =>
    rw [applyCBEvents_concat, trailingFailures_concat]
    cases e with
    | success => simp [applyCBEvent, CircuitBreaker.onSuccess, isFailureEv]
    | failure t => simp [applyCBEvent, CircuitBreaker.onFailure, isFailureEv, ih]

/-- Helper for C10: neither `onSuccess` nor `onFailure` touches the
configured threshold. -/
theorem applyCBEvents_threshold (cb : CircuitBreaker) (es : List CBEvent) :
    (applyCBEvents cb es).threshold = cb.threshold := by
  induction es generalizing cb with
  | nil => rfl
  | cons e t ih =>
    rw [show applyCBEvents cb (e :: t) = applyCBEvents (applyCBEvent cb e) t from rfl, ih]
    cases e <;> rfl

/-- Helper for C10: a list whose leading-failure count is at least `k`
splits off a length-`k` all-failure head. -/
theorem leadingFailures_take (k : Nat) :
    ∀ (m : List CBEvent), k ≤ leadingFailures m →
      ∃ q r, m = q ++ r ∧ q.length = k ∧ ∀ ev ∈ q, isFailureEv ev = true := by
  induction k with
  | zero => intro m _; exact ⟨[], m, rfl, rfl, by simp⟩
  | succ k ih =>
    intro m hk
    match m with
    | [] => simp [leadingFailures] at hk
    | a :: t =>
      by_cases ha : isFailureEv a
      · have ht : k ≤ leadingFailures t := by
          unfold leadingFailures at hk
          rw [if_pos ha] at hk
          omega
        obtain ⟨q, r, hqr, hlen, hall⟩ := ih t ht
        refine ⟨a :: q, r, by simp [hqr], by simp [hlen], ?_⟩
        intro ev hev
        rcases List.mem_cons.mp hev with h | h
        · rw [h]; exact ha
        · exact hall ev h
      · unfold leadingFailures at hk
        rw [if_neg ha] at hk
        omega

/-- Helper for C10: a trace whose trailing-failure count is at least
`k` ends with `k` failures and no intervening success. -/
theorem trailingFailures_suffix (l : List CBEvent) (k : Nat)
    (hk : k ≤ trailingFailures l) :
    ∃ p q, l = p ++ q ∧ q.length = k ∧ ∀ ev ∈ q, isFailureEv ev = true := by
  obtain ⟨q, r, hqr, hlen, hall⟩ := leadingFailures_take k l.reverse hk
  refine ⟨r.reverse, q.reverse, ?_, by simp [hlen], ?_⟩
  · have h2 : l.reverse.reverse = (q ++ r).reverse := by rw [hqr]
    simpa [List.reverse_append] using h2
  · intro ev hev
    exact hall ev (List.mem_reverse.mp hev)

/-- C10: a single successful call resets the consecutive-failure
counter to zero in every breaker state; consequently, whenever
recording one more call outcome takes a breaker (evolved from a fresh
one by any trace of outcomes) from a non-OPEN state to OPEN, that
outcome is a failure and the trace ends with `threshold` failed calls
with no intervening success — `threshold` failures merely accumulated
around successes never open the breaker. -/
theorem breaker_opens_only_after_consecutive_failures
    (th tmo : Nat) (es : List CBEvent) (e : CBEvent)
    (hnot : (applyCBEvents (CircuitBreaker.create th tmo) es).state ≠ CBState.OPEN)
    (hopen : (applyCBEvent (applyCBEvents (CircuitBreaker.create th tmo) es) e).state =
      CBState.OPEN) :
    (∀ cb : CircuitBreaker, cb.onSuccess.failureCount = 0) ∧
    isFailureEv e = true ∧
    ∃ p q, es ++ [e] = p ++ q ∧ q.length = th ∧ ∀ ev ∈ q, isFailureEv ev = true := by
  refine ⟨fun cb => rfl, ?_⟩
  cases e with
  | success =>
    exfalso
    apply hnot
    simp only [applyCBEvent, CircuitBreaker.onSuccess] at hopen
    by_cases hh : (applyCBEvents (CircuitBreaker.create th tmo) es).state = CBState.HALF_OPEN
    · rw [if_pos hh] at hopen; exact absurd hopen (by decide)
    · rw [if_neg hh] at hopen; exact hopen
  | failure t =>
    refine ⟨rfl, ?_⟩
    have hcount : th ≤ (applyCBEvents (CircuitBreaker.create th tmo) es).failureCount + 1 := by
      simp only [applyCBEvent, CircuitBreaker.onFailure] at hopen
      rw [applyCBEvents_threshold,
        show (CircuitBreaker.create th tmo).threshold = th from rfl] at hopen
      by_cases hth : th ≤ (applyCBEvents (CircuitBreaker.create th tmo) es).failureCount + 1
      · exact hth
      · rw [if_neg hth] at hopen
        exact absurd hopen hnot
    have htrail : th ≤ trailingFailures (es ++ [CBEvent.failure t]) := by
      rw [trailingFailures_concat]
      simp only [isFailureEv, if_pos]
      rw [← applyCBEvents_failureCount th tmo es]
      exact hcount
    exact trailingFailures_suffix _ th htrail

/-- Witness for C10: threshold 2; one recorded failure leaves the
breaker CLOSED, the second failure in a row opens it. -/
theorem breaker_opens_witness :
    ((applyCBEvents (CircuitBreaker.create 2 60000) [CBEvent.failure 5]).state ≠
      CBState.OPEN) ∧
    ((∀ cb : CircuitBreaker, cb.onSuccess.failureCount = 0) ∧
      isFailureEv (CBEvent.failure 9) = true ∧
      ∃ p q, [CBEvent.failure 5] ++ [CBEvent.failure 9] = p ++ q ∧ q.length = 2 ∧
        ∀ ev ∈ q, isFailureEv ev = true) :=
  ⟨by decide, breaker_opens_only_after_consecutive_failures 2 60000
    [CBEvent.failure 5] (CBEvent.failure 9) (by decide) (by decide)⟩
